import Mathlib

/-!
Verification development for the `confluence-markdown-exporter` repository
(`confluence_markdown_exporter/confluence.py`).

Each Python function relevant to the checked properties is shallowly embedded
as an executable Lean definition.  External effects (HTTP fetches, the Jira
client, `mimetypes.guess_extension`, `hashlib.md5`, `base64.b64decode`,
markdown rendering of sub-trees) are passed in as explicit function
parameters; the file system is passed as an explicit list of file names and
the completed-pages log as an explicit list of text lines.  Python exceptions
are modelled with `Except`.
-/

/-! ## Python scalar values

`export_pages` compares page ids (Python `int`s as declared by its signature
`page_ids: list[int]`) against the set of lines read from
`processed_pages.txt` (Python `str`s).  Python `==` between an `int` and a
`str` is always `False`, which `PyVal` mirrors. -/

/-- A Python value that is either an `int` or a `str`. -/
inductive PyVal where
  | intV (n : Int)
  | strV (s : String)
deriving DecidableEq

/-- Python `==` on `PyVal`: values of different types are never equal. -/
def pyEq : PyVal → PyVal → Bool
  | .intV a, .intV b => a == b
  | .strV a, .strV b => a == b
  | _, _ => false

/-- Python `f"{page_id}"`: the text written for a page id when it is appended
to `processed_pages.txt`. -/
def pyStr : PyVal → String
  | .intV n => toString n
  | .strV s => s

/-! ## `export_pages` (confluence.py lines 1121-1162)

The completed log is the list of (stripped) lines of
`.cache/processed_pages.txt`.  `export_page` is a parameter: `Except.ok`
models a successful export, `Except.error` models any exception raised while
exporting a single page (caught by the `except Exception` handler in the
loop, which logs the page and moves on). -/

/-- Source line 1148: `pages_to_process = [page_id for page_id in page_ids if
page_id not in processed_pages]`, with `processed_pages` the set of stripped
lines of the log file (strings). -/
def pages_to_process (page_ids : List PyVal) (processed_lines : List String) : List PyVal :=
  page_ids.filter (fun pid => !(processed_lines.any (fun line => pyEq pid (PyVal.strV line))))

/-- Outcome of one `export_pages` run: the final log lines, the ids exported
successfully (appended to the log, in order), and the ids whose export raised
(logged and skipped). -/
structure RunResult where
  log : List String
  exported : List PyVal
  failed : List PyVal
deriving DecidableEq

/-- One iteration of the loop at source lines 1153-1162: run `export_page`;
on success append `f"{page_id}\n"` to the log file; on any exception record
the failure and continue. -/
def export_pages_step (export_page : PyVal → Except String Unit) (r : RunResult) (pid : PyVal) :
    RunResult :=
  match export_page pid with
  | .ok _ => { r with log := r.log ++ [pyStr pid], exported := r.exported ++ [pid] }
  | .error _ => { r with failed := r.failed ++ [pid] }

/-- `export_pages(page_ids, output_path)` over an existing log: filter the
input against the log lines, then process the remaining ids in order. -/
def export_pages (export_page : PyVal → Except String Unit) (page_ids : List PyVal)
    (log0 : List String) : RunResult :=
  (pages_to_process page_ids log0).foldl (export_pages_step export_page) ⟨log0, [], []⟩

/-- `export_pages` killed after the first `n` of the filtered pages have been
processed (the process dies between loop iterations). -/
def export_pages_killed (export_page : PyVal → Except String Unit) (page_ids : List PyVal)
    (log0 : List String) (n : Nat) : RunResult :=
  ((pages_to_process page_ids log0).take n).foldl (export_pages_step export_page) ⟨log0, [], []⟩

/-! ## Markdown style (`Page.html` lines 488-497, `Converter.markdown` lines 646-657) -/

/-- The configured `markdown_style` value.  The two supported literals are
`"GFM"` and `"Obsidian"`; `other s` is any other configured string. -/
inductive MarkdownStyle where
  | GFM
  | Obsidian
  | other (s : String)

/-- `Page.html` (lines 488-497): GFM prefixes a synthesized `<h1>` heading
with the page title to the raw body; Obsidian returns the raw body; anything
else raises `ValueError(f"Invalid markdown style: ...")`. -/
def page_html (style : MarkdownStyle) (title body : String) : Except String String :=
  match style with
  | .GFM => .ok ("<h1>" ++ title ++ "</h1>" ++ body)
  | .Obsidian => .ok body
  | .other s => .error ("Invalid markdown style: " ++ s)

/-- `Converter.breadcrumbs` (lines 672-677): the converted ancestor page
links joined by `" > "`, followed by a newline. -/
def breadcrumbs (ancestor_links : List String) : String :=
  String.intercalate " > " ancestor_links ++ "\n"

/-- `Converter.markdown` (lines 646-657): assemble front matter, breadcrumbs
and converted body.  GFM: `f"{front_matter}\n{breadcrumbs}\n{md_body}\n"`;
Obsidian: `f"{front_matter}\n{md_body}\n"`; anything else raises
`ValueError`. -/
def converter_markdown (style : MarkdownStyle) (front_matter bc md_body : String) :
    Except String String :=
  match style with
  | .GFM => .ok (front_matter ++ "\n" ++ bc ++ "\n" ++ md_body ++ "\n")
  | .Obsidian => .ok (front_matter ++ "\n" ++ md_body ++ "\n")
  | .other s => .error ("Invalid markdown style: " ++ s)

/-- `export_page` for a fixed configured style: the first thing that can fail
with the style error is the conversion of `page.html` inside
`export_markdown`; the error propagates out of `export_page`, which has no
handler of its own. -/
def export_page_styled (style : MarkdownStyle) (title_of body_of : PyVal → String)
    (pid : PyVal) : Except String Unit :=
  (page_html style (title_of pid) (body_of pid)).map (fun _ => ())

/-! ## `Document._get_safe_ancestor_title` (lines 354-365) -/

/-- A `requests.HTTPError` carrying `e.response.status_code`. -/
structure HttpError where
  status : Nat
deriving DecidableEq

/-- `_get_safe_ancestor_title`: fetch `Page.from_id(ancestor_id).title`; on
`HTTPError` with status 403 return the literal `"N/A"`; re-raise any other
`HTTPError` unchanged.  `page_title_from_id` models the fetch. -/
def get_safe_ancestor_title (page_title_from_id : Int → Except HttpError String)
    (ancestor_id : Int) : Except HttpError String :=
  match page_title_from_id ancestor_id with
  | .ok t => .ok t
  | .error e => if e.status = 403 then .ok "N/A" else .error e

/-! ## Path templates (`Page.export_path` lines 483-486, `Attachment.export_path` lines 401-404)

The source builds `string.Template(template.replace("{", "${"))` and calls
`safe_substitute(vars)`.  `safeSubF` implements CPython's
`Template.safe_substitute` for the default delimiter `$` and identifier
pattern `[_a-zA-Z][_a-zA-Z0-9]*`: `$$` is an escaped delimiter, `$name` and
`$\x7bname\x7d` are substituted when `name` is a key (otherwise the whole match is
left unchanged), and an ill-formed delimiter expression leaves the lone `$`
unchanged.  The fuel argument only ensures structural recursion; every step
consumes at least one character, so `fuel = length` is always enough. -/

/-- First character of a Python `Template` identifier (`(?a:[_a-zA-Z])`). -/
def isIdStart (c : Char) : Bool := c.isAlpha || c == '_'

/-- Later character of a Python `Template` identifier (`(?a:[_a-zA-Z0-9])`). -/
def isIdChar (c : Char) : Bool := c.isAlphanum || c == '_'

/-- Python `mapping[named]` lookup for `safe_substitute`. -/
def lookupVar (vars : List (String × String)) (name : String) : Option String :=
  (vars.find? (fun kv => kv.1 == name)).map (fun kv => kv.2)

/-- Substitution of a braced match `$\x7bident\x7d`: the value when `ident` is a
key, else the whole match unchanged. -/
def substBraced (vars : List (String × String)) (ident : List Char) : List Char :=
  match lookupVar vars ⟨ident⟩ with
  | some v => v.data
  | none => '$' :: '\x7b' :: (ident ++ ['\x7d'])

/-- Substitution of a named match `$ident`: the value when `ident` is a key,
else the whole match unchanged. -/
def substNamed (vars : List (String × String)) (ident : List Char) : List Char :=
  match lookupVar vars ⟨ident⟩ with
  | some v => v.data
  | none => '$' :: ident

/-- Parse the part after `$\x7b`: an identifier followed by `\x7d`.  Returns the
identifier and the remaining input, or `none` if the braced form is
ill-formed (in which case the regex alternative `braced` fails). -/
def parseBraced : List Char → Option (List Char × List Char)
  | [] => none
  | c :: rest =>
    if isIdStart c then
      match rest.dropWhile isIdChar with
      | '\x7d' :: rest2 => some (c :: rest.takeWhile isIdChar, rest2)
      | _ => none
    else none

/-- CPython `Template.safe_substitute` scanning loop over the character
list. -/
def safeSubF (vars : List (String × String)) : Nat → List Char → List Char
  | 0, l => l
  | _ + 1, [] => []
  | fuel + 1, c :: rest =>
    if c == '$' then
      match rest with
      | [] => ['$']
      | d :: rest2 =>
        if d == '$' then '$' :: safeSubF vars fuel rest2
        else if d == '\x7b' then
          match parseBraced rest2 with
          | some (ident, rest3) => substBraced vars ident ++ safeSubF vars fuel rest3
          | none => '$' :: safeSubF vars fuel rest
        else if isIdStart d then
          substNamed vars (d :: rest2.takeWhile isIdChar) ++
            safeSubF vars fuel (rest2.dropWhile isIdChar)
        else '$' :: safeSubF vars fuel rest
    else c :: safeSubF vars fuel rest

/-- `Template(...).safe_substitute(vars)` on a whole string. -/
def safe_substitute (vars : List (String × String)) (s : String) : String :=
  ⟨safeSubF vars s.data.length s.data⟩

/-- One character of `template.replace("\x7b", "$\x7b")`. -/
def bdStep (c : Char) (acc : List Char) : List Char :=
  if c == '\x7b' then '$' :: '\x7b' :: acc else c :: acc

/-- Source `template.replace("\x7b", "$\x7b")`: prepend `$` to every opening
brace. -/
def braceDollar (s : String) : String :=
  ⟨s.data.foldr bdStep []⟩

/-- `Page.export_path` / `Attachment.export_path` as a string: substitute the
template variables into the configured path template (the source wraps the
result in `Path(...)`, which does not alter the characters of the unresolved
placeholder). -/
def export_path (vars : List (String × String)) (template : String) : String :=
  safe_substitute vars (braceDollar template)

/-- The documented variable names for page path templates
(`ConverterSettings.page_path`, `Document._template_vars` plus
`Page._template_vars`). -/
def page_var_keys : List String :=
  ["space_key", "space_name", "homepage_id", "homepage_title",
   "ancestor_ids", "ancestor_titles", "page_id", "page_title"]

/-- `Page._template_vars` with the eight variable values passed explicitly
(the source computes them from entity fields via `sanitize_filename`; their
contents are irrelevant to placeholder resolution). -/
def page_template_vars (sk sn hid ht aids ats pid pt : String) : List (String × String) :=
  [("space_key", sk), ("space_name", sn), ("homepage_id", hid), ("homepage_title", ht),
   ("ancestor_ids", aids), ("ancestor_titles", ats), ("page_id", pid), ("page_title", pt)]

/-- A string shaped like a Python `Template` identifier. -/
def validIdent (s : String) : Bool :=
  match s.data with
  | [] => false
  | c :: t => isIdStart c && t.all isIdChar

/-! ## `Page.Converter.convert_img` and asset resolution (lines 556-575, 923-1053)

External collaborators are fields of `ImgEnv`: `mimetypes.guess_extension`,
`hashlib.md5(...).hexdigest()` (applied to the text that the source encodes),
`base64.b64decode` (`none` models a raised decode error),
the HTTP GET (returning the response `Content-Type` on success; `Except.error`
models `raise_for_status`, a network error, or the Jira HTML-response
rejection), `os.path.splitext(urlparse(url).path)[1].lower()`, the
configured base URL, the rendering of the final `<img>`/attachment markdown,
and `Page.from_id(...).attachments` for the container-page lookup.  The
assets directory is the list `fs` of file names already present. -/

/-- The fields of an `Attachment` that asset matching reads. -/
structure Att where
  id : String
  fileId : String
deriving DecidableEq

/-- External collaborators of `convert_img`. -/
structure ImgEnv where
  guessExt : String → Option String
  md5hex : String → String
  b64decode : String → Option (List Nat)
  fetch : String → Except Unit String
  urlExt : String → String
  baseUrl : String
  renderImg : String → String
  renderAttachment : Att → String
  pageById : String → List Att

/-- Python truthiness of `el.get(attr)`: `None` and `""` are falsy. -/
def truthy : Option String → Bool
  | none => false
  | some s => !(s == "")

/-- The exceptions that attachment resolution can raise. -/
inductive PyExc where
  | attributeError
  | stopIteration
deriving DecidableEq

/-- `Page.get_attachment_by_id` (lines 571-572): `next(...)` over the
attachments with matching `id`; raises `StopIteration` when there is no
match. -/
def get_attachment_by_id (atts : List Att) (id : String) : Except PyExc Att :=
  match atts.find? (fun a => a.id == id) with
  | some a => .ok a
  | none => .error .stopIteration

/-- `Page.get_attachment_by_file_id` (lines 574-575): `next(...)` over the
attachments with matching `file_id`; raises `StopIteration` when there is no
match.  (Line 559 intends to call this, but never reaches it: see
`get_attachment_from_element`.) -/
def get_attachment_by_file_id (atts : List Att) (file_id : String) : Except PyExc Att :=
  match atts.find? (fun a => a.fileId == file_id) with
  | some a => .ok a
  | none => .error .stopIteration

/-- The `<img>`/`<a>` element attributes that asset resolution reads. -/
structure ImgEl where
  dataMediaId : Option String
  dataLinkedResourceId : Option String
  dataLinkedResourceContainerId : Option String
  src : Option String

/-- `Page.get_attachment_from_element` (lines 556-569).  This is a method of
`Page`, yet line 559 reads `self.page.get_attachment_by_file_id(...)`; a
`Page` has no `page` attribute, so every truthy `data-media-id` raises
`AttributeError` before any lookup runs (the page's own attachment list
`_atts` is never consulted).  Otherwise: `""` (modelled `ok none`) when the
`data-linked-resource-id`/container-id attributes are missing, else
`get_attachment_by_id` on the container page's attachments, whose
`next(...)` raises `StopIteration` when there is no exact match. -/
def get_attachment_from_element (_atts : List Att) (pageById : String → List Att)
    (el : ImgEl) : Except PyExc (Option Att) :=
  if truthy el.dataMediaId then
    .error .attributeError
  else if truthy el.dataLinkedResourceId && truthy el.dataLinkedResourceContainerId then
    (get_attachment_by_id (pageById (el.dataLinkedResourceContainerId.getD ""))
      (el.dataLinkedResourceId.getD "")).map some
  else .ok none

/-- The inline regex `r"data:([^;]+);base64,(.+)"` under `re.match`: literal
`data:`, a nonempty run of non-`;` characters (the mime type), the literal
`;base64,`, then at least one non-newline character (the base64 payload). -/
def parse_data_uri (src : String) : Option (String × String) :=
  if ("data:".data).isPrefixOf src.data then
    let rest := src.data.drop 5
    let mime := rest.takeWhile (fun c => !(c == ';'))
    if mime.isEmpty then none
    else
      let rest2 := rest.dropWhile (fun c => !(c == ';'))
      if (";base64,".data).isPrefixOf rest2 then
        let payload := (rest2.drop 8).takeWhile (fun c => !(c == '\n'))
        if payload.isEmpty then none else some (⟨mime⟩, ⟨payload⟩)
      else none
  else none

/-- `mimetypes.guess_extension(mime_type) or ".bin"` (line 952): Python `or`
falls through on `None` and on the empty string. -/
def data_uri_extension (env : ImgEnv) (mime : String) : String :=
  match env.guessExt mime with
  | some e => if e == "" then ".bin" else e
  | none => ".bin"

/-- The base64 branch of `convert_img` (lines 943-981): name the file by
`md5(base64_text)` plus the mime-derived extension, skip the write when that
file already exists, decode-and-save otherwise (a decode error is caught and
yields `""`), and emit the rewritten image. -/
def convert_img_data_uri (env : ImgEnv) (fs : List String) (mime payload : String) :
    List String × String :=
  let name := env.md5hex payload ++ data_uri_extension env mime
  if name ∈ fs then (fs, env.renderImg name)
  else
    match env.b64decode payload with
    | some _ => (fs ++ [name], env.renderImg name)
    | none => (fs, "")

/-- `known_image_extensions` (line 1027). -/
def known_image_extensions : List String :=
  [".jpg", ".jpeg", ".png", ".gif", ".svg", ".webp", ".bmp", ".tiff", ".ico"]

/-- The direct-URL branch of `convert_img` (lines 983-1051): reuse any
existing `hash.*` file; otherwise fetch the URL (any failure, including the
Jira HTML-response rejection, is caught and yields `""`), derive the
extension from the response content type with the URL-extension allowlist
fallback, save, and emit the rewritten image. -/
def convert_img_url (env : ImgEnv) (fs : List String) (src : String) :
    List String × String :=
  let srcHash := env.md5hex src
  match fs.find? (fun n => ((srcHash ++ ".").data).isPrefixOf n.data) with
  | some n => (fs, env.renderImg n)
  | none =>
    let url := if ("/".data).isPrefixOf src.data then env.baseUrl ++ src else src
    match env.fetch url with
    | .error _ => (fs, "")
    | .ok contentType =>
      let extension :=
        match env.guessExt contentType with
        | some e => if e == "" then ".bin" else e
        | none => ".bin"
      let extension :=
        if extension == ".bin" then
          let ue := env.urlExt url
          if !(ue == "") && ue ∈ known_image_extensions then ue else ".bin"
        else extension
      (fs ++ [srcHash ++ extension], env.renderImg (srcHash ++ extension))

/-- `Page.Converter.convert_img` (lines 923-1053): attachment-backed images
first (the `AttributeError` raised for every truthy `data-media-id` and the
`StopIteration` from a missing exact match on the container page both
propagate), then `data:` URIs, then direct URLs; an element with neither
attachment ids nor `src` yields `""`. -/
def convert_img (env : ImgEnv) (atts : List Att) (fs : List String) (el : ImgEl) :
    Except PyExc (List String × String) :=
  match get_attachment_from_element atts env.pageById el with
  | .error e => .error e
  | .ok (some a) => .ok (fs, env.renderAttachment a)
  | .ok none =>
    match el.src with
    | none => .ok (fs, "")
    | some src =>
      if src == "" then .ok (fs, "")
      else if ("data:".data).isPrefixOf src.data then
        match parse_data_uri src with
        | some (mime, payload) => .ok (convert_img_data_uri env fs mime payload)
        | none => .ok (convert_img_url env fs src)
      else .ok (convert_img_url env fs src)

/-! ## `Page.Converter.convert_alert` / `convert_div` (lines 709-747) -/

/-- `alert_type_map` (lines 714-720). -/
def alert_type_map : List (String × String) :=
  [("info", "IMPORTANT"), ("panel", "NOTE"), ("tip", "TIP"),
   ("note", "WARNING"), ("warning", "CAUTION")]

/-- `convert_alert` (lines 709-725): `alert_type_map.get(name, "NOTE")`, then
`f"\n> [!\x7balert_type\x7d]\x7bblockquote\x7d"` where `blockquote` is the converted
blockquote body. -/
def convert_alert (macro_name blockquote : String) : String :=
  let alert_type := (((alert_type_map.find? (fun kv => kv.1 == macro_name)).map
    (fun kv => kv.2)).getD "NOTE")
  "\n> [!" ++ alert_type ++ "]" ++ blockquote

/-- The `data-macro-name` values that `convert_div` (line 732) routes to
`convert_alert`. -/
def alert_macro_names : List String := ["panel", "info", "note", "tip", "warning"]

/-! ## `convert_a` display links and `get_page_id_by_space_and_name` (lines 860-867, 1165-1189) -/

/-- `get_page_id_by_space_and_name`: run the CQL query (`query` returns the
first matching page id, if any); any exception is caught and yields `None`. -/
def get_page_id_by_space_and_name (query : String → String → Except Unit (Option Int))
    (space_key page_name : String) : Option Int :=
  match query space_key page_name with
  | .ok r => r
  | .error _ => none

/-- The `/display/` branch of `convert_a` (lines 860-867): resolve the page
by space key and title; when `if page_id:` is falsy (`None` or `0`) fall back
to `f"[\x7btext\x7d](\x7bel.get('href', '')\x7d)"` with the original href. -/
def convert_a_display (lookup : String → String → Option Int) (page_link : Int → String)
    (text href : String) (space_key page_name : String) : String :=
  match lookup space_key page_name with
  | some pid => if pid = 0 then "[" ++ text ++ "](" ++ href ++ ")" else page_link pid
  | none => "[" ++ text ++ "](" ++ href ++ ")"

/-! ## `Attachment.export` (lines 427-442) -/

/-- Result of the download `confluence._session.get(...)` plus
`raise_for_status()`: success with content, an `HTTPError` (caught: the
export is skipped), or any other exception (not caught: it propagates). -/
inductive DownloadResult where
  | ok (content : List Nat)
  | httpError
  | otherError

/-- `Attachment.export`: if the target path already exists return
immediately; otherwise download (an `HTTPError` skips the export; any other
exception propagates) and save.  The result carries the new file list,
whether a download was attempted, and whether a file was written. -/
def attachment_export (download : DownloadResult) (fs : List String) (filepath : String) :
    Except Unit (List String × Bool × Bool) :=
  if filepath ∈ fs then .ok (fs, false, false)
  else
    match download with
    | .httpError => .ok (fs, true, false)
    | .otherError => .error ()
    | .ok _ => .ok (fs ++ [filepath], true, true)

/-- A concrete collaborator environment used to evaluate the converter on
closed inputs. -/
def sampleEnv : ImgEnv where
  guessExt := fun m => if m == "image/png" then some ".png" else none
  md5hex := fun s => s
  b64decode := fun s => if s == "bad" then none else some []
  fetch := fun _ => .error ()
  urlExt := fun _ => ""
  baseUrl := "https://conf.example"
  renderImg := fun n => "![](" ++ n ++ ")"
  renderAttachment := fun a => "![](" ++ a.fileId ++ ")"
  pageById := fun _ => []

/-! # Theorems -/

/-! ## C1: resumable batch export -/

/-- C1: the claim fails on the code.  Running `export_pages([1, 2, 3])` (ints,
as declared by the signature) and killing the process after page 2 was
appended leaves the log lines `"1"` and `"2"`; re-running over `[1, 2, 3]`
filters the int ids against those string lines, so nothing is filtered and
all three pages are processed again, not only page 3. -/
theorem export_pages_resume_filter_is_broken :
    (export_pages_killed (fun _ => .ok ()) [PyVal.intV 1, PyVal.intV 2, PyVal.intV 3] [] 2).log
      = ["1", "2"] ∧
    pages_to_process [PyVal.intV 1, PyVal.intV 2, PyVal.intV 3] ["1", "2"]
      = [PyVal.intV 1, PyVal.intV 2, PyVal.intV 3] ∧
    pages_to_process [PyVal.intV 1, PyVal.intV 2, PyVal.intV 3] ["1", "2"]
      ≠ [PyVal.intV 3] := by
  refine ⟨by decide, by decide, by decide⟩

/-! ## C2: unrecognized output style -/

/-- When every `export_page` call raises, the batch loop records every
filtered page as failed and keeps going: nothing aborts the run. -/
theorem foldl_always_error (ep : PyVal → Except String Unit)
    (h : ∀ pid, ∃ e, ep pid = .error e) :
    ∀ (l : List PyVal) (r : RunResult),
      l.foldl (export_pages_step ep) r = ⟨r.log, r.exported, r.failed ++ l⟩ := by
  intro l
  induction l with
  | nil => intro r; simp
  | cons p t ih =>
    intro r
    obtain ⟨e, he⟩ := h p
    rw [List.foldl_cons]
    show t.foldl (export_pages_step ep) (export_pages_step ep r p) = _
    rw [ih (export_pages_step ep r p)]
    simp [export_pages_step, he]

/-- C2 (amended): with a markdown style other than the two supported ones,
every page's conversion raises `ValueError(f"Invalid markdown style: ...")`,
but during a batch export the per-page `except Exception` handler catches it
like any other page failure: every filtered page is attempted and recorded as
failed, no page is exported or appended to the completed log, and the run is
not aborted. -/
theorem export_pages_invalid_style_caught (s : String) (title_of body_of : PyVal → String)
    (ids : List PyVal) (log0 : List String) :
    (∀ pid, export_page_styled (MarkdownStyle.other s) title_of body_of pid
      = .error ("Invalid markdown style: " ++ s)) ∧
    export_pages (export_page_styled (MarkdownStyle.other s) title_of body_of) ids log0
      = ⟨log0, [], pages_to_process ids log0⟩ := by
  constructor
  · intro pid; rfl
  · exact foldl_always_error _ (fun pid => ⟨_, rfl⟩) _ _

/-- C2: the claim as stated is false.  With the unrecognized style `"X"` and
input pages `[1, 2]`, the style error is raised for page 1 but the run does
not abort: page 2 is still attempted (and fails the same way), so two pages
are processed after the first configuration error. -/
theorem export_pages_invalid_style_not_fatal_cex :
    export_pages (export_page_styled (MarkdownStyle.other "X") (fun _ => "") (fun _ => ""))
        [PyVal.intV 1, PyVal.intV 2] []
      = ⟨[], [], [PyVal.intV 1, PyVal.intV 2]⟩ ∧
    ¬ ((export_pages (export_page_styled (MarkdownStyle.other "X") (fun _ => "") (fun _ => ""))
        [PyVal.intV 1, PyVal.intV 2] []).failed.length ≤ 1) := by
  refine ⟨by decide, by decide⟩

/-! ## C3: safe ancestor titles -/

/-- C3: when the underlying page fetch raises an HTTP error,
`_get_safe_ancestor_title` returns the literal `"N/A"` for status 403 and
re-raises the same error unchanged for every other status code. -/
theorem get_safe_ancestor_title_spec (page_title_from_id : Int → Except HttpError String)
    (ancestor_id : Int) (e : HttpError)
    (h : page_title_from_id ancestor_id = .error e) :
    get_safe_ancestor_title page_title_from_id ancestor_id
      = if e.status = 403 then .ok "N/A" else .error e := by
  simp [get_safe_ancestor_title, h]

/-- C3 witness: a fetch failing with 403 resolves to `"N/A"`; one failing
with 404 is re-raised unchanged. -/
theorem get_safe_ancestor_title_spec_witness :
    ((fun _ : Int => (Except.error ⟨403⟩ : Except HttpError String)) 5
        = Except.error ⟨403⟩) ∧
    get_safe_ancestor_title (fun _ : Int => (Except.error ⟨403⟩ : Except HttpError String)) 5
      = (if (403 : Nat) = 403 then .ok "N/A" else .error ⟨403⟩) ∧
    get_safe_ancestor_title (fun _ : Int => (Except.error ⟨500⟩ : Except HttpError String)) 5
      = (if (500 : Nat) = 403 then .ok "N/A" else .error ⟨500⟩) :=
  ⟨rfl, get_safe_ancestor_title_spec _ 5 ⟨403⟩ rfl, get_safe_ancestor_title_spec _ 5 ⟨500⟩ rfl⟩

/-! ## C8: alert macros -/

/-- C8: `convert_alert` prefixes the converted blockquote with the label
fixed by `alert_type_map` — `warning` maps to `[!CAUTION]` — and any macro
name absent from the map defaults to `[!NOTE]`.  `convert_div` routes exactly
the five mapped names to `convert_alert`. -/
theorem convert_alert_severity (bq name : String)
    (h : alert_type_map.find? (fun kv => kv.1 == name) = none) :
    convert_alert "warning" bq = "\n> [!CAUTION]" ++ bq ∧
    convert_alert "info" bq = "\n> [!IMPORTANT]" ++ bq ∧
    convert_alert "panel" bq = "\n> [!NOTE]" ++ bq ∧
    convert_alert "tip" bq = "\n> [!TIP]" ++ bq ∧
    convert_alert "note" bq = "\n> [!WARNING]" ++ bq ∧
    convert_alert name bq = "\n> [!NOTE]" ++ bq ∧
    "warning" ∈ alert_macro_names ∧
    (∀ n, n ∈ alert_macro_names → (alert_type_map.find? (fun kv => kv.1 == n)).isSome) := by
  refine ⟨rfl, rfl, rfl, rfl, rfl, ?_, by decide, by decide⟩
  simp [convert_alert, h]

/-- C8 witness: the unmapped macro name `"expand"` defaults to `[!NOTE]`. -/
theorem convert_alert_severity_witness :
    alert_type_map.find? (fun kv => kv.1 == "expand") = none ∧
    convert_alert "warning" "Q" = "\n> [!CAUTION]" ++ "Q" ∧
    convert_alert "expand" "Q" = "\n> [!NOTE]" ++ "Q" :=
  ⟨by decide, (convert_alert_severity "Q" "expand" (by decide)).1,
    (convert_alert_severity "Q" "expand" (by decide)).2.2.2.2.2.1⟩

/-! ## C9: unresolved display links -/

/-- C9: a `/display/\x7bspace\x7d/\x7btitle\x7d` link whose reverse lookup finds no
page keeps the original href in the emitted markdown link; no error is
raised (the lookup itself swallows query errors into `None`). -/
theorem convert_a_display_unresolved (query : String → String → Except Unit (Option Int))
    (page_link : Int → String) (text href space_key page_name : String)
    (h : get_page_id_by_space_and_name query space_key page_name = none) :
    convert_a_display (get_page_id_by_space_and_name query) page_link text href
        space_key page_name
      = "[" ++ text ++ "](" ++ href ++ ")" ∧
    (∀ sk pn, query sk pn = .error () → get_page_id_by_space_and_name query sk pn = none) := by
  constructor
  · simp [convert_a_display, h]
  · intro sk pn hq
    simp [get_page_id_by_space_and_name, hq]

/-- C9 witness: a query returning no result leaves the original href in
place. -/
theorem convert_a_display_unresolved_witness :
    get_page_id_by_space_and_name (fun _ _ => .ok none) "SP" "My Page" = none ∧
    convert_a_display (get_page_id_by_space_and_name (fun _ _ => .ok none))
        (fun _ => "RESOLVED") "txt" "/display/SP/My+Page" "SP" "My Page"
      = "[" ++ "txt" ++ "](" ++ "/display/SP/My+Page" ++ ")" :=
  ⟨rfl, (convert_a_display_unresolved (fun _ _ => .ok none) (fun _ => "RESOLVED")
    "txt" "/display/SP/My+Page" "SP" "My Page" rfl).1⟩

/-! ## C10: attachment export is download-once -/

/-- C10: when the computed export path already exists, `Attachment.export`
returns immediately: no download is attempted and nothing is written.
Consequently exporting the same attachment twice writes its file at most
once, and a second export after a successful first one performs no download
at all. -/
theorem attachment_export_idempotent (d : DownloadResult) (fs : List String) (p : String)
    (fs1 : List String) (a1 w1 : Bool)
    (h1 : attachment_export d fs p = .ok (fs1, a1, w1)) :
    (p ∈ fs → fs1 = fs ∧ a1 = false ∧ w1 = false) ∧
    (w1 = true → attachment_export d fs1 p = .ok (fs1, false, false)) ∧
    (∀ fs2 a2 w2, attachment_export d fs1 p = .ok (fs2, a2, w2) → (w1 && w2) = false) := by
  by_cases hp : p ∈ fs
  · unfold attachment_export at h1
    rw [if_pos hp] at h1
    injection h1 with h2
    cases h2
    refine ⟨fun _ => ⟨rfl, rfl, rfl⟩, ?_, ?_⟩
    · intro hw
      simp at hw
    · intro fs2 a2 w2 _
      rfl
  · unfold attachment_export at h1
    rw [if_neg hp] at h1
    cases d with
    | httpError =>
      injection h1 with h2
      cases h2
      refine ⟨fun hmem => absurd hmem hp, ?_, ?_⟩
      · intro hw
        simp at hw
      · intro fs2 a2 w2 _
        rfl
    | otherError => cases h1
    | ok content =>
      injection h1 with h2
      cases h2
      have hmem : p ∈ fs ++ [p] := by simp
      have hsecond :
          attachment_export (DownloadResult.ok content) (fs ++ [p]) p
            = .ok (fs ++ [p], false, false) := by
        unfold attachment_export
        rw [if_pos hmem]
      refine ⟨fun hmem2 => absurd hmem2 hp, fun _ => hsecond, ?_⟩
      intro fs2 a2 w2 h3
      rw [hsecond] at h3
      injection h3 with h4
      cases h4
      rfl

/-- C10 witness: a path already on disk is not re-downloaded or rewritten. -/
theorem attachment_export_idempotent_witness :
    attachment_export (DownloadResult.ok [7]) ["a/b.png"] "a/b.png"
        = .ok (["a/b.png"], false, false) ∧
    ("a/b.png" ∈ ["a/b.png"] →
      (["a/b.png"] : List String) = ["a/b.png"] ∧ false = false ∧ false = false) :=
  ⟨rfl,
    (attachment_export_idempotent (DownloadResult.ok [7]) ["a/b.png"] "a/b.png"
      ["a/b.png"] false false rfl).1⟩

/-! ## C7: style-dependent composition -/

/-- Extracting the middle segment and tail of a list decomposition. -/
theorem append_segment (o s m t : List Char) (h : o = s ++ m ++ t) :
    (o.drop s.length).take m.length = m ∧ o.drop (s.length + m.length) = t := by
  subst h
  constructor
  · rw [List.append_assoc, List.drop_left, List.take_left]
  · rw [← List.length_append, List.drop_left]

/-- C7 (amended): the GFM style prefixes the raw body with a synthesized
`<h1>` page-title heading and places the breadcrumb trail (ancestor links
joined by `" > "`) between the front matter and the converted body — before
the body, not after it; the Obsidian style emits neither the heading nor the
breadcrumbs (its output does not depend on the breadcrumb string at all). -/
theorem converter_markdown_composition (fm bc bc2 md title body : String)
    (links : List String) :
    page_html MarkdownStyle.GFM title body = .ok ("<h1>" ++ title ++ "</h1>" ++ body) ∧
    converter_markdown MarkdownStyle.GFM fm bc md
      = .ok (fm ++ "\n" ++ bc ++ "\n" ++ md ++ "\n") ∧
    page_html MarkdownStyle.Obsidian title body = .ok body ∧
    converter_markdown MarkdownStyle.Obsidian fm bc md
      = converter_markdown MarkdownStyle.Obsidian fm bc2 md ∧
    converter_markdown MarkdownStyle.Obsidian fm bc md = .ok (fm ++ "\n" ++ md ++ "\n") ∧
    breadcrumbs links = String.intercalate " > " links ++ "\n" :=
  ⟨rfl, rfl, rfl, rfl, rfl, rfl⟩

/-- C7: the claim as stated is false: the breadcrumb trail is not appended
after the body.  With empty front matter, breadcrumb string `"CRUMB"` and
converted body `"BODY"`, the GFM output is `"\nCRUMB\nBODY\n"`, and there is
no decomposition of that output with `"CRUMB"` occurring after `"BODY"`. -/
theorem converter_markdown_breadcrumbs_after_body_cex :
    converter_markdown MarkdownStyle.GFM "" "CRUMB" "BODY" = .ok "\nCRUMB\nBODY\n" ∧
    ¬ ∃ s t : List Char,
        "\nCRUMB\nBODY\n".data = s ++ "BODY".data ++ t ∧ "CRUMB".data <:+: t := by
  constructor
  · rfl
  · rintro ⟨s, t, heq, u, v, huv⟩
    have hlen12 : ("\nCRUMB\nBODY\n".data).length = 12 := by decide
    have hlen : 12 = s.length + (4 + t.length) := by
      have h0 := congrArg List.length heq
      simp [hlen12, List.length_append] at h0
      omega
    have hlent : 12 = s.length + (4 + (u.length + (5 + v.length))) := by
      have := congrArg List.length huv
      simp [List.length_append] at this
      omega
    have hseg1 := append_segment _ s ("BODY".data) t heq
    have hseg2 := append_segment _ u ("CRUMB".data) v huv.symm
    have hC : (("\nCRUMB\nBODY\n".data).drop (s.length + 4 + u.length)).take 5
        = "CRUMB".data := by
      have ht : ("\nCRUMB\nBODY\n".data).drop (s.length + 4) = t := hseg1.2
      have h5 : (t.drop u.length).take 5 = "CRUMB".data := hseg2.1
      rw [← ht, List.drop_drop] at h5
      exact h5
    have hk : s.length + u.length ≤ 3 := by omega
    have hcheck : ∀ k : Fin 4,
        ¬ ((("\nCRUMB\nBODY\n".data).drop (k.1 + 4)).take 5 = "CRUMB".data) := by decide
    have hrw : s.length + 4 + u.length = (s.length + u.length) + 4 := by omega
    rw [hrw] at hC
    exact hcheck ⟨s.length + u.length, by omega⟩ hC

/-! ## C6: base64 asset hashing and dedup -/

/-- Unfolding equation for `convert_img_data_uri`. -/
theorem convert_img_data_uri_eq (env : ImgEnv) (fs : List String) (mime payload : String) :
    convert_img_data_uri env fs mime payload
      = (if env.md5hex payload ++ data_uri_extension env mime ∈ fs then
          (fs, env.renderImg (env.md5hex payload ++ data_uri_extension env mime))
        else
          match env.b64decode payload with
          | some _ => (fs ++ [env.md5hex payload ++ data_uri_extension env mime],
              env.renderImg (env.md5hex payload ++ data_uri_extension env mime))
          | none => (fs, "")) := rfl

/-- C6: for `data:` URIs the local file name is the md5 hash of the base64
payload plus the mime-derived extension (fallback `.bin`); nothing is written
when that file already exists; converting the same URI twice writes at most
one file (the second conversion never writes); and two payloads with
distinct hash-plus-extension names (md5 is collision-free on them) produce
two distinct files. -/
theorem convert_img_data_uri_hash_dedup (env : ImgEnv) (fs : List String)
    (m1 m2 p1 p2 : String)
    (hd1 : (env.b64decode p1).isSome = true) (hd2 : (env.b64decode p2).isSome = true)
    (hn1 : env.md5hex p1 ++ data_uri_extension env m1 ∉ fs)
    (hn2 : env.md5hex p2 ++ data_uri_extension env m2 ∉ fs)
    (hne : env.md5hex p1 ++ data_uri_extension env m1
      ≠ env.md5hex p2 ++ data_uri_extension env m2) :
    (convert_img_data_uri env fs m1 p1).1
      = fs ++ [env.md5hex p1 ++ data_uri_extension env m1] ∧
    (∀ fs2 mime payload, env.md5hex payload ++ data_uri_extension env mime ∈ fs2 →
      convert_img_data_uri env fs2 mime payload
        = (fs2, env.renderImg (env.md5hex payload ++ data_uri_extension env mime))) ∧
    (∀ fs2 mime payload,
      (convert_img_data_uri env (convert_img_data_uri env fs2 mime payload).1 mime payload).1
        = (convert_img_data_uri env fs2 mime payload).1 ∧
      (convert_img_data_uri env fs2 mime payload).1.length ≤ fs2.length + 1) ∧
    (convert_img_data_uri env (convert_img_data_uri env fs m1 p1).1 m2 p2).1
      = fs ++ [env.md5hex p1 ++ data_uri_extension env m1,
          env.md5hex p2 ++ data_uri_extension env m2] := by
  obtain ⟨x1, hx1⟩ := Option.isSome_iff_exists.mp hd1
  obtain ⟨x2, hx2⟩ := Option.isSome_iff_exists.mp hd2
  have hfresh : ∀ (fs2 : List String) (mime payload : String) (x : List Nat),
      env.md5hex payload ++ data_uri_extension env mime ∉ fs2 →
      env.b64decode payload = some x →
      convert_img_data_uri env fs2 mime payload
        = (fs2 ++ [env.md5hex payload ++ data_uri_extension env mime],
          env.renderImg (env.md5hex payload ++ data_uri_extension env mime)) := by
    intro fs2 mime payload x hmem hdec
    rw [convert_img_data_uri_eq, if_neg hmem, hdec]
  have hhit : ∀ (fs2 : List String) (mime payload : String),
      env.md5hex payload ++ data_uri_extension env mime ∈ fs2 →
      convert_img_data_uri env fs2 mime payload
        = (fs2, env.renderImg (env.md5hex payload ++ data_uri_extension env mime)) := by
    intro fs2 mime payload hmem
    rw [convert_img_data_uri_eq, if_pos hmem]
  have hmiss : ∀ (fs2 : List String) (mime payload : String),
      env.md5hex payload ++ data_uri_extension env mime ∉ fs2 →
      env.b64decode payload = none →
      convert_img_data_uri env fs2 mime payload = (fs2, "") := by
    intro fs2 mime payload hmem hdec
    rw [convert_img_data_uri_eq, if_neg hmem, hdec]
  refine ⟨by rw [hfresh fs m1 p1 x1 hn1 hx1], hhit, ?_, ?_⟩
  · intro fs2 mime payload
    by_cases hmem : env.md5hex payload ++ data_uri_extension env mime ∈ fs2
    · rw [hhit fs2 mime payload hmem]
      constructor
      · show (convert_img_data_uri env fs2 mime payload).1 = fs2
        rw [hhit fs2 mime payload hmem]
      · show fs2.length ≤ fs2.length + 1
        omega
    · cases hdec : env.b64decode payload with
      | none =>
        rw [hmiss fs2 mime payload hmem hdec]
        constructor
        · show (convert_img_data_uri env fs2 mime payload).1 = fs2
          rw [hmiss fs2 mime payload hmem hdec]
        · show fs2.length ≤ fs2.length + 1
          omega
      | some x =>
        rw [hfresh fs2 mime payload x hmem hdec]
        constructor
        · show (convert_img_data_uri env
              (fs2 ++ [env.md5hex payload ++ data_uri_extension env mime]) mime payload).1
            = fs2 ++ [env.md5hex payload ++ data_uri_extension env mime]
          rw [hhit _ mime payload (by simp)]
        · show (fs2 ++ [env.md5hex payload ++ data_uri_extension env mime]).length
            ≤ fs2.length + 1
          simp
  · rw [hfresh fs m1 p1 x1 hn1 hx1]
    show (convert_img_data_uri env
        (fs ++ [env.md5hex p1 ++ data_uri_extension env m1]) m2 p2).1
      = fs ++ [env.md5hex p1 ++ data_uri_extension env m1,
          env.md5hex p2 ++ data_uri_extension env m2]
    have hmem2 : env.md5hex p2 ++ data_uri_extension env m2
        ∉ fs ++ [env.md5hex p1 ++ data_uri_extension env m1] := by
      intro hmem3
      rcases List.mem_append.mp hmem3 with h | h
      · exact hn2 h
      · rw [List.mem_singleton] at h
        exact hne h.symm
    rw [hfresh _ m2 p2 x2 hmem2 hx2]
    simp

/-- C6 witness: two concrete distinct payloads through the sample
environment. -/
theorem convert_img_data_uri_hash_dedup_witness :
    (sampleEnv.b64decode "aaaa").isSome = true ∧
    (sampleEnv.b64decode "bbbb").isSome = true ∧
    sampleEnv.md5hex "aaaa" ++ data_uri_extension sampleEnv "image/png" ∉ ([] : List String) ∧
    sampleEnv.md5hex "bbbb" ++ data_uri_extension sampleEnv "image/png" ∉ ([] : List String) ∧
    sampleEnv.md5hex "aaaa" ++ data_uri_extension sampleEnv "image/png"
      ≠ sampleEnv.md5hex "bbbb" ++ data_uri_extension sampleEnv "image/png" ∧
    (convert_img_data_uri sampleEnv [] "image/png" "aaaa").1
      = [] ++ [sampleEnv.md5hex "aaaa" ++ data_uri_extension sampleEnv "image/png"] :=
  ⟨by decide, by decide, by decide, by decide, by decide,
    (convert_img_data_uri_hash_dedup sampleEnv [] "image/png" "image/png" "aaaa" "bbbb"
      (by decide) (by decide) (by decide) (by decide) (by decide)).1⟩

/-! ## C5: dropped versus propagated asset failures -/

/-- C5: the claim as stated is false.  An `img` element carrying a truthy
`data-media-id` makes `get_attachment_from_element` (a `Page` method) read
`self.page.get_attachment_by_file_id` at line 559; a `Page` has no `page`
attribute, so `AttributeError` is raised — whether or not a matching
attachment exists — and it propagates out of `convert_img` instead of
yielding an empty result. -/
theorem convert_img_attachment_ref_propagates_cex :
    convert_img sampleEnv [] [] (ImgEl.mk (some "f1") none none (some "x.png"))
      = .error PyExc.attributeError ∧
    ∀ out : List String × String,
      convert_img sampleEnv [] [] (ImgEl.mk (some "f1") none none (some "x.png"))
        ≠ .ok out := by
  refine ⟨rfl, ?_⟩
  intro out h
  rw [show convert_img sampleEnv [] [] (ImgEl.mk (some "f1") none none (some "x.png"))
      = .error PyExc.attributeError from rfl] at h
  exact Except.noConfusion h

/-- C5 (amended): failed or invalid image fetches and base64 decode errors
are caught inside `convert_img`: the caller receives an empty result, no
file is written, and the reference is dropped; an element with no usable id
attributes and no `src` also yields an empty result.  But attachment-backed
references fail loudly: a truthy `data-media-id` always raises
`AttributeError` (line 559 reads the nonexistent `self.page` on a `Page`),
and a linked-resource id with no exact match in the container page's
attachment list raises `StopIteration`; both propagate out of the
conversion. -/
theorem convert_img_failure_handling (env : ImgEnv) :
    (∀ atts fs el, truthy el.dataMediaId = true →
      convert_img env atts fs el = .error PyExc.attributeError) ∧
    (∀ atts fs el, truthy el.dataMediaId = false →
      (truthy el.dataLinkedResourceId && truthy el.dataLinkedResourceContainerId) = true →
      (env.pageById (el.dataLinkedResourceContainerId.getD "")).find?
        (fun a => a.id == el.dataLinkedResourceId.getD "") = none →
      convert_img env atts fs el = .error PyExc.stopIteration) ∧
    (∀ fs mime payload, env.b64decode payload = none →
      env.md5hex payload ++ data_uri_extension env mime ∉ fs →
      convert_img_data_uri env fs mime payload = (fs, "")) ∧
    (∀ fs src, (("data:".data).isPrefixOf src.data) = false → (src == "") = false →
      fs.find? (fun n => ((env.md5hex src ++ ".").data).isPrefixOf n.data) = none →
      env.fetch (if ("/".data).isPrefixOf src.data then env.baseUrl ++ src else src)
        = .error () →
      convert_img env [] fs (ImgEl.mk none none none (some src)) = .ok (fs, "")) ∧
    (∀ atts fs, convert_img env atts fs (ImgEl.mk none none none none) = .ok (fs, "")) := by
  refine ⟨?_, ?_, ?_, ?_, ?_⟩
  · intro atts fs el h1
    simp [convert_img, get_attachment_from_element, h1]
  · intro atts fs el h1 h2 h3
    simp [convert_img, get_attachment_from_element, get_attachment_by_id,
      Except.map, h1, h2, h3]
  · intro fs mime payload hdec hmem
    simp [convert_img_data_uri, hdec, hmem]
  · intro fs src hpre hne hglob hfetch
    have hurl : convert_img_url env fs src = (fs, "") := by
      simp only [convert_img_url]
      rw [hglob, hfetch]
    simp [convert_img, get_attachment_from_element, truthy, hne, hpre, hurl]
  · intro atts fs
    simp [convert_img, get_attachment_from_element, truthy]

/-- C5 witness (for the amended statement): a concrete `data-media-id`
reference raises `AttributeError`, a concrete unmatched linked-resource id
raises `StopIteration`, and a concrete failed fetch is dropped with an empty
result. -/
theorem convert_img_failure_handling_witness :
    truthy (some "f1") = true ∧
    convert_img sampleEnv [] [] (ImgEl.mk (some "f1") none none none)
      = .error PyExc.attributeError ∧
    (sampleEnv.pageById "99").find? (fun a => a.id == (some "9").getD "") = none ∧
    convert_img sampleEnv [] [] (ImgEl.mk none (some "9") (some "99") none)
      = .error PyExc.stopIteration ∧
    convert_img sampleEnv [] [] (ImgEl.mk none none none (some "http://h/i"))
      = .ok ([], "") :=
  ⟨by decide,
    (convert_img_failure_handling sampleEnv).1 [] [] (ImgEl.mk (some "f1") none none none)
      (by decide),
    rfl,
    (convert_img_failure_handling sampleEnv).2.1 [] []
      (ImgEl.mk none (some "9") (some "99") none) (by decide) (by decide) rfl,
    (convert_img_failure_handling sampleEnv).2.2.2.1 [] "http://h/i"
      (by decide) (by decide) rfl rfl⟩

/-! ## C4: unknown placeholders survive path resolution

Helper lemmas about the `safe_substitute` scanner. -/

/-- An identifier-start character is not the delimiter. -/
theorem idStart_ne_dollar {c : Char} (h : isIdStart c = true) : (c == '$') = false := by
  by_cases hc : c = '$'
  · subst hc
    exact absurd h (by decide)
  · simp [hc]

/-- An identifier character is not the delimiter. -/
theorem idChar_ne_dollar {c : Char} (h : isIdChar c = true) : (c == '$') = false := by
  by_cases hc : c = '$'
  · subst hc
    exact absurd h (by decide)
  · simp [hc]

/-- An identifier-start character is not an opening brace. -/
theorem idStart_ne_brace {c : Char} (h : isIdStart c = true) : (c == '\x7b') = false := by
  by_cases hc : c = '\x7b'
  · subst hc
    exact absurd h (by decide)
  · simp [hc]

/-- An identifier character is not an opening brace. -/
theorem idChar_ne_brace {c : Char} (h : isIdChar c = true) : (c == '\x7b') = false := by
  by_cases hc : c = '\x7b'
  · subst hc
    exact absurd h (by decide)
  · simp [hc]

/-- `takeWhile` cannot cross an element on which the predicate fails. -/
theorem takeWhile_append_stop (p : Char → Bool) (d : Char) (hd : p d = false)
    (x y : List Char) : (x ++ d :: y).takeWhile p = x.takeWhile p := by
  induction x with
  | nil => simp [List.takeWhile_cons, hd]
  | cons c x2 ih =>
    by_cases hc : p c
    · simp [List.takeWhile_cons, hc, ih]
    · simp [List.takeWhile_cons, hc]

/-- `dropWhile` cannot cross an element on which the predicate fails. -/
theorem dropWhile_append_stop (p : Char → Bool) (d : Char) (hd : p d = false)
    (x y : List Char) : (x ++ d :: y).dropWhile p = x.dropWhile p ++ d :: y := by
  induction x with
  | nil => simp [List.dropWhile_cons, hd]
  | cons c x2 ih =>
    by_cases hc : p c
    · simp [List.dropWhile_cons, hc, ih]
    · simp [List.dropWhile_cons, hc]

/-- `takeWhile` over a list on which the predicate always holds. -/
theorem takeWhile_all_eq (p : Char → Bool) (t : List Char) (h : t.all p = true) :
    t.takeWhile p = t := by
  induction t with
  | nil => rfl
  | cons c t2 ih =>
    simp only [List.all_cons, Bool.and_eq_true] at h
    simp [List.takeWhile_cons, h.1, ih h.2]

/-- `dropWhile` over a list on which the predicate always holds. -/
theorem dropWhile_all_nil (p : Char → Bool) (t : List Char) (h : t.all p = true) :
    t.dropWhile p = [] := by
  induction t with
  | nil => rfl
  | cons c t2 ih =>
    simp only [List.all_cons, Bool.and_eq_true] at h
    simp [List.dropWhile_cons, h.1, ih h.2]

/-- `dropWhile` never lengthens a list. -/
theorem dropWhile_le_length (p : Char → Bool) (t : List Char) :
    (t.dropWhile p).length ≤ t.length := by
  induction t with
  | nil => simp
  | cons c t2 ih =>
    by_cases hc : p c
    · simp only [List.dropWhile_cons, hc, if_true]
      exact Nat.le_succ_of_le ih
    · simp [List.dropWhile_cons, hc]

/-- Scanner step: an ordinary character is copied. -/
theorem safeSubF_cons (vars : List (String × String)) (f : Nat) (c : Char)
    (rest : List Char) (h : (c == '$') = false) :
    safeSubF vars (f + 1) (c :: rest) = c :: safeSubF vars f rest := by
  simp [safeSubF, h]

/-- Scanner step: `$$` is an escaped delimiter. -/
theorem safeSubF_dollar_dollar (vars : List (String × String)) (f : Nat)
    (rest : List Char) :
    safeSubF vars (f + 1) ('$' :: '$' :: rest) = '$' :: safeSubF vars f rest := rfl

/-- Scanner step: `$\x7b` starts a braced expression. -/
theorem safeSubF_dollar_brace (vars : List (String × String)) (f : Nat)
    (rest2 : List Char) :
    safeSubF vars (f + 1) ('$' :: '\x7b' :: rest2)
      = (match parseBraced rest2 with
        | some (ident, rest3) => substBraced vars ident ++ safeSubF vars f rest3
        | none => '$' :: safeSubF vars f ('\x7b' :: rest2)) := rfl

/-- Scanner step: `$` before an identifier-start character is a named
expression. -/
theorem safeSubF_dollar_named (vars : List (String × String)) (f : Nat) (d : Char)
    (rest2 : List Char) (h1 : (d == '$') = false) (h2 : (d == '\x7b') = false)
    (h3 : isIdStart d = true) :
    safeSubF vars (f + 1) ('$' :: d :: rest2)
      = substNamed vars (d :: rest2.takeWhile isIdChar) ++
          safeSubF vars f (rest2.dropWhile isIdChar) := by
  simp [safeSubF, h1, h2, h3]

/-- Scanner step: a `$` followed by anything else is an ill-formed delimiter
expression, left unchanged. -/
theorem safeSubF_dollar_invalid (vars : List (String × String)) (f : Nat) (d : Char)
    (rest2 : List Char) (h1 : (d == '$') = false) (h2 : (d == '\x7b') = false)
    (h3 : isIdStart d = false) :
    safeSubF vars (f + 1) ('$' :: d :: rest2) = '$' :: safeSubF vars f (d :: rest2) := by
  simp [safeSubF, h1, h2, h3]

/-- Scanner: a delimiter-free prefix is copied verbatim. -/
theorem safeSubF_lit (vars : List (String × String)) :
    ∀ (t : List Char) (f : Nat) (rest : List Char),
      t.all (fun c => !(c == '$')) = true → t.length ≤ f →
      safeSubF vars f (t ++ rest) = t ++ safeSubF vars (f - t.length) rest := by
  intro t
  induction t with
  | nil => intro f rest _ _; simp
  | cons c t2 ih =>
    intro f rest hall hlen
    simp only [List.all_cons, Bool.and_eq_true] at hall
    match f with
    | 0 => simp at hlen
    | f2 + 1 =>
      have hc : (c == '$') = false := by
        have := hall.1
        simpa using this
      rw [List.cons_append, safeSubF_cons vars f2 c (t2 ++ rest) hc]
      rw [ih f2 rest hall.2 (by simpa using hlen)]
      simp [Nat.succ_sub_succ]

/-- Identifier characters are never the delimiter, as a list predicate. -/
theorem all_idChar_no_dollar (nt : List Char) (ht : nt.all isIdChar = true) :
    nt.all (fun c => !(c == '$')) = true := by
  rw [List.all_eq_true] at ht ⊢
  intro x hx
  have h := idChar_ne_dollar (ht x hx)
  simp [h]

/-- Parsing a braced expression that consists of exactly an identifier and
the closing brace. -/
theorem parseBraced_exact (c0 : Char) (nt l2 : List Char) (hs : isIdStart c0 = true)
    (ht : nt.all isIdChar = true) :
    parseBraced (c0 :: (nt ++ '\x7d' :: l2)) = some (c0 :: nt, l2) := by
  simp only [parseBraced, hs, if_true]
  rw [dropWhile_append_stop isIdChar '\x7d' (by decide) nt l2,
    dropWhile_all_nil isIdChar nt ht,
    takeWhile_append_stop isIdChar '\x7d' (by decide) nt l2,
    takeWhile_all_eq isIdChar nt ht]
  simp

/-- A list is contiguously contained in itself followed by anything. -/
theorem isInfix_of_append (pat tail : List Char) : pat <:+: pat ++ tail :=
  ⟨[], tail, by simp⟩

/-- Contiguous containment survives prepending one element. -/
theorem isInfix_cons_of (c : Char) {pat l : List Char} (h : pat <:+: l) :
    pat <:+: c :: l := by
  obtain ⟨u, v, huv⟩ := h
  exact ⟨c :: u, v, by rw [← huv]; simp⟩

/-- Contiguous containment survives prepending a list. -/
theorem isInfix_append_left (s : List Char) {pat l : List Char} (h : pat <:+: l) :
    pat <:+: s ++ l := by
  obtain ⟨u, v, huv⟩ := h
  exact ⟨s ++ u, v, by rw [← huv]; simp⟩

/-- Core C4 lemma: scanning any text that contains `$\x7bname\x7d`, where `name`
is a well-formed identifier that is not a key of the mapping, leaves the
characters `\x7bname\x7d` contiguously in the output. -/
theorem safeSubF_unknown (vars : List (String × String)) (c0 : Char) (nt : List Char)
    (hs : isIdStart c0 = true) (ht : nt.all isIdChar = true)
    (hlk : lookupVar vars ⟨c0 :: nt⟩ = none) :
    ∀ (fuel : Nat) (l1 l2 : List Char),
      (l1 ++ ('$' :: '\x7b' :: ((c0 :: nt) ++ '\x7d' :: l2))).length ≤ fuel →
      ('\x7b' :: ((c0 :: nt) ++ ['\x7d'])) <:+:
        safeSubF vars fuel (l1 ++ ('$' :: '\x7b' :: ((c0 :: nt) ++ '\x7d' :: l2))) := by
  intro fuel
  induction fuel with
  | zero =>
    intro l1 l2 hlen
    exfalso
    simp [List.length_append] at hlen
  | succ f ih =>
    intro l1 l2 hlen
    cases l1 with
    | nil =>
      rw [List.nil_append, safeSubF_dollar_brace]
      have hpb0 : parseBraced ((c0 :: nt) ++ '\x7d' :: l2) = some (c0 :: nt, l2) := by
        rw [List.cons_append]
        exact parseBraced_exact c0 nt l2 hs ht
      rw [hpb0]
      show ('\x7b' :: ((c0 :: nt) ++ ['\x7d'])) <:+:
        substBraced vars (c0 :: nt) ++ safeSubF vars f l2
      simp only [substBraced, hlk]
      exact ⟨['$'], safeSubF vars f l2, by simp [List.append_assoc]⟩
    | cons c l1' =>
      show ('\x7b' :: ((c0 :: nt) ++ ['\x7d'])) <:+:
        safeSubF vars (f + 1) (c :: (l1' ++ ('$' :: '\x7b' :: ((c0 :: nt) ++ '\x7d' :: l2))))
      by_cases hc : c = '$'
      · subst hc
        cases l1' with
        | nil =>
          rw [List.nil_append, safeSubF_dollar_dollar]
          have hall : ('\x7b' :: ((c0 :: nt) ++ ['\x7d'])).all (fun ch => !(ch == '$'))
              = true := by
            simp only [List.all_cons, List.all_append, Bool.and_eq_true]
            refine ⟨by decide, ⟨?_, ?_⟩, by decide⟩
            · simp [idStart_ne_dollar hs]
            · exact all_idChar_no_dollar nt ht
          have hsh : ('\x7b' :: ((c0 :: nt) ++ '\x7d' :: l2))
              = ('\x7b' :: ((c0 :: nt) ++ ['\x7d'])) ++ l2 := by
            simp [List.append_assoc]
          have hflen : ('\x7b' :: ((c0 :: nt) ++ ['\x7d'])).length ≤ f := by
            simp [List.length_append] at hlen ⊢
            omega
          rw [hsh, safeSubF_lit vars _ f l2 hall hflen]
          exact isInfix_cons_of '$' (isInfix_of_append _ _)
        | cons d l1'' =>
          show ('\x7b' :: ((c0 :: nt) ++ ['\x7d'])) <:+:
            safeSubF vars (f + 1)
              ('$' :: d :: (l1'' ++ ('$' :: '\x7b' :: ((c0 :: nt) ++ '\x7d' :: l2))))
          by_cases hd1 : d = '$'
          · subst hd1
            rw [safeSubF_dollar_dollar]
            exact isInfix_cons_of '$' (ih l1'' l2
              (by simp [List.length_append] at hlen ⊢; omega))
          · by_cases hd2 : d = '\x7b'
            · subst hd2
              rw [safeSubF_dollar_brace]
              cases l1'' with
              | nil =>
                have hpb : parseBraced
                    ([] ++ ('$' :: '\x7b' :: ((c0 :: nt) ++ '\x7d' :: l2))) = none := by
                  rw [List.nil_append]
                  rfl
                rw [hpb]
                exact isInfix_cons_of '$' (ih ['\x7b'] l2
                  (by simp [List.length_append] at hlen ⊢; omega))
              | cons e l1c =>
                by_cases he : isIdStart e
                · cases hda : l1c.dropWhile isIdChar with
                  | nil =>
                    have hpb : parseBraced
                        ((e :: l1c) ++ ('$' :: '\x7b' :: ((c0 :: nt) ++ '\x7d' :: l2)))
                          = none := by
                      simp only [List.cons_append, parseBraced, he, if_true]
                      rw [dropWhile_append_stop isIdChar '$' (by decide) l1c _, hda]
                      simp
                    rw [hpb]
                    exact isInfix_cons_of '$' (ih ('\x7b' :: e :: l1c) l2
                      (by simp [List.length_append] at hlen ⊢; omega))
                  | cons g l1d =>
                    by_cases hg : g = '\x7d'
                    · subst hg
                      have hpb : parseBraced
                          ((e :: l1c) ++ ('$' :: '\x7b' :: ((c0 :: nt) ++ '\x7d' :: l2)))
                            = some (e :: l1c.takeWhile isIdChar,
                              l1d ++ ('$' :: '\x7b' :: ((c0 :: nt) ++ '\x7d' :: l2))) := by
                        simp only [List.cons_append, parseBraced, he, if_true]
                        rw [dropWhile_append_stop isIdChar '$' (by decide) l1c _, hda,
                          takeWhile_append_stop isIdChar '$' (by decide) l1c _]
                        simp
                      rw [hpb]
                      have hdl : l1d.length + 1 ≤ l1c.length := by
                        have hy := dropWhile_le_length isIdChar l1c
                        rw [hda] at hy
                        simpa using hy
                      exact isInfix_append_left _ (ih l1d l2
                        (by simp [List.length_append] at hlen ⊢; omega))
                    · have hpb : parseBraced
                          ((e :: l1c) ++ ('$' :: '\x7b' :: ((c0 :: nt) ++ '\x7d' :: l2)))
                            = none := by
                        simp only [List.cons_append, parseBraced, he, if_true]
                        rw [dropWhile_append_stop isIdChar '$' (by decide) l1c _, hda]
                        simp [hg]
                      rw [hpb]
                      exact isInfix_cons_of '$' (ih ('\x7b' :: e :: l1c) l2
                        (by simp [List.length_append] at hlen ⊢; omega))
                · have hpb : parseBraced
                      ((e :: l1c) ++ ('$' :: '\x7b' :: ((c0 :: nt) ++ '\x7d' :: l2)))
                        = none := by
                    simp only [List.cons_append, parseBraced]
                    simp [he]
                  rw [hpb]
                  exact isInfix_cons_of '$' (ih ('\x7b' :: e :: l1c) l2
                    (by simp [List.length_append] at hlen ⊢; omega))
            · by_cases hd3 : isIdStart d
              · rw [safeSubF_dollar_named vars f d _
                  (by simp [hd1]) (by simp [hd2]) hd3]
                rw [dropWhile_append_stop isIdChar '$' (by decide) l1'' _]
                exact isInfix_append_left _ (ih (l1''.dropWhile isIdChar) l2
                  (by
                    have hdw := dropWhile_le_length isIdChar l1''
                    simp [List.length_append] at hlen ⊢
                    omega))
              · rw [safeSubF_dollar_invalid vars f d _
                  (by simp [hd1]) (by simp [hd2]) (by simpa using hd3)]
                exact isInfix_cons_of '$' (ih (d :: l1'') l2
                  (by simp [List.length_append] at hlen ⊢; omega))
      · rw [safeSubF_cons vars f c _ (by simp [hc])]
        exact isInfix_cons_of c (ih l1' l2
          (by simp [List.length_append] at hlen ⊢; omega))

/-- Folding `bdStep` with an accumulator appends the accumulator. -/
theorem bdFoldr_acc (l acc : List Char) : l.foldr bdStep acc = l.foldr bdStep [] ++ acc := by
  induction l with
  | nil => simp
  | cons c t ih =>
    simp only [List.foldr_cons]
    by_cases hc : c = '\x7b'
    · simp [bdStep, hc, ih]
    · simp [bdStep, hc, ih]

/-- `template.replace("\x7b", "$\x7b")` distributes over concatenation. -/
theorem braceDollar_append (s t : String) :
    (braceDollar (s ++ t)).data = (braceDollar s).data ++ (braceDollar t).data := by
  show ((s ++ t).data.foldr bdStep []) = _
  rw [String.data_append, List.foldr_append, bdFoldr_acc]
  rfl

/-- `replace("\x7b", "$\x7b")` leaves brace-free text unchanged. -/
theorem bdFoldr_no_brace (l : List Char) (h : l.all (fun c => !(c == '\x7b')) = true) :
    l.foldr bdStep [] = l := by
  induction l with
  | nil => rfl
  | cons c t ih =>
    simp only [List.all_cons, Bool.and_eq_true] at h
    have hc : (c == '\x7b') = false := by
      have := h.1
      simpa using this
    simp [bdStep, hc, ih h.2]

/-- Identifier characters are never an opening brace, as a list predicate. -/
theorem all_idChar_no_brace (nt : List Char) (ht : nt.all isIdChar = true) :
    nt.all (fun c => !(c == '\x7b')) = true := by
  rw [List.all_eq_true] at ht ⊢
  intro x hx
  have h := idChar_ne_brace (ht x hx)
  simp [h]

/-- C4: for any page path template that contains a placeholder
`\x7bname\x7d` whose name is a well-formed identifier outside the documented
variable set, path resolution is total (the embedding returns a string, as
`safe_substitute` raises nothing) and the unresolved placeholder text
`\x7bname\x7d` still occurs verbatim (contiguously) in the resolved path.
The resolver prefixes the leftover placeholder with the `$` introduced by
`replace("\x7b", "$\x7b")`, so the resolved path contains `$\x7bname\x7d`; in
particular the text `\x7bname\x7d` written in the template survives
unchanged. -/
theorem export_path_unknown_placeholder
    (pre post name sk sn hid htl aids ats pid ptl : String)
    (hval : validIdent name = true)
    (hunk : name ∉ page_var_keys) :
    ("\x7b" ++ name ++ "\x7d").data <:+:
      (export_path (page_template_vars sk sn hid htl aids ats pid ptl)
        (pre ++ "\x7b" ++ name ++ "\x7d" ++ post)).data := by
  obtain ⟨nd⟩ := name
  cases nd with
  | nil => exact absurd hval (by decide)
  | cons c0 nt =>
    have hval' : (isIdStart c0 && nt.all isIdChar) = true := hval
    rw [Bool.and_eq_true] at hval'
    obtain ⟨hs, ht⟩ := hval'
    simp only [page_var_keys, List.mem_cons, List.mem_singleton, not_or] at hunk
    obtain ⟨h1, h2, h3, h4, h5, h6, h7, h8, -⟩ := hunk
    have e1 : ("space_key" == (⟨c0 :: nt⟩ : String)) = false :=
      beq_eq_false_iff_ne.mpr (Ne.symm h1)
    have e2 : ("space_name" == (⟨c0 :: nt⟩ : String)) = false :=
      beq_eq_false_iff_ne.mpr (Ne.symm h2)
    have e3 : ("homepage_id" == (⟨c0 :: nt⟩ : String)) = false :=
      beq_eq_false_iff_ne.mpr (Ne.symm h3)
    have e4 : ("homepage_title" == (⟨c0 :: nt⟩ : String)) = false :=
      beq_eq_false_iff_ne.mpr (Ne.symm h4)
    have e5 : ("ancestor_ids" == (⟨c0 :: nt⟩ : String)) = false :=
      beq_eq_false_iff_ne.mpr (Ne.symm h5)
    have e6 : ("ancestor_titles" == (⟨c0 :: nt⟩ : String)) = false :=
      beq_eq_false_iff_ne.mpr (Ne.symm h6)
    have e7 : ("page_id" == (⟨c0 :: nt⟩ : String)) = false :=
      beq_eq_false_iff_ne.mpr (Ne.symm h7)
    have e8 : ("page_title" == (⟨c0 :: nt⟩ : String)) = false :=
      beq_eq_false_iff_ne.mpr (Ne.symm h8)
    have hlk : lookupVar (page_template_vars sk sn hid htl aids ats pid ptl)
        ⟨c0 :: nt⟩ = none := by
      simp [lookupVar, page_template_vars, List.find?, e1, e2, e3, e4, e5, e6, e7, e8]
    have hbdname : (braceDollar ⟨c0 :: nt⟩).data = c0 :: nt := by
      apply bdFoldr_no_brace
      show (c0 :: nt).all (fun c => !(c == '\x7b')) = true
      simp only [List.all_cons, Bool.and_eq_true]
      constructor
      · simp [idStart_ne_brace hs]
      · exact all_idChar_no_brace nt ht
    have hdata : (braceDollar (pre ++ "\x7b" ++ ⟨c0 :: nt⟩ ++ "\x7d" ++ post)).data
        = (braceDollar pre).data ++
          ('$' :: '\x7b' :: ((c0 :: nt) ++ '\x7d' :: (braceDollar post).data)) := by
      rw [braceDollar_append, braceDollar_append, braceDollar_append, braceDollar_append]
      rw [hbdname]
      rw [show (braceDollar "\x7b").data = ['$', '\x7b'] from rfl]
      rw [show (braceDollar "\x7d").data = ['\x7d'] from rfl]
      simp [List.append_assoc]
    have hpat : ("\x7b" ++ (⟨c0 :: nt⟩ : String) ++ "\x7d").data
        = '\x7b' :: ((c0 :: nt) ++ ['\x7d']) := by
      simp [String.data_append]
    show ("\x7b" ++ (⟨c0 :: nt⟩ : String) ++ "\x7d").data <:+:
      safeSubF (page_template_vars sk sn hid htl aids ats pid ptl)
        ((braceDollar (pre ++ "\x7b" ++ ⟨c0 :: nt⟩ ++ "\x7d" ++ post)).data.length)
        ((braceDollar (pre ++ "\x7b" ++ ⟨c0 :: nt⟩ ++ "\x7d" ++ post)).data)
    rw [hpat, hdata]
    exact safeSubF_unknown (page_template_vars sk sn hid htl aids ats pid ptl)
      c0 nt hs ht hlk _ (braceDollar pre).data (braceDollar post).data (Nat.le_refl _)

/-- C4 witness: the unknown placeholder `\x7bunknown\x7d` survives resolution of
a concrete template. -/
theorem export_path_unknown_placeholder_witness :
    validIdent "unknown" = true ∧
    "unknown" ∉ page_var_keys ∧
    ("\x7b" ++ "unknown" ++ "\x7d").data <:+:
      (export_path (page_template_vars "S" "Space Name" "1" "Home" "2/3" "A/B" "9" "Title")
        ("docs/" ++ "\x7b" ++ "unknown" ++ "\x7d" ++ ".md")).data :=
  ⟨by decide, by decide,
    export_path_unknown_placeholder "docs/" ".md" "unknown" "S" "Space Name" "1" "Home"
      "2/3" "A/B" "9" "Title" (by decide) (by decide)⟩
